import Mathlib

/-!
Verification of the perphive order-flow aggregation core.

Shallow embedding of `src/perphive-worker/src/index.ts` (the Book Analyzer,
Level Detector, Whale Consensus Scorer, Trend Tracker, Signal Synthesizer and
the `OrderFlowDO` aggregation actor), together with theorems settling the
behavioural claims about that code.

Numbers: JavaScript numbers are modelled as rationals (`ℚ`).  The one place
where the source can produce a non-finite value on its own inputs - the
division in `analyzeOrderBook` - is modelled exactly, with an explicit type
`JsNum` of JavaScript numeric values (`nan`, the two infinities, and finite
values); every arithmetic operation the embedded code performs on possibly
non-finite values is given its JavaScript semantics (NaN propagates, any
comparison with NaN is false, `Math.min` with a NaN argument is NaN, ...).
`Date.now()` is passed in as an explicit `now : ℚ` parameter.
-/

/-- A JavaScript number: NaN, +Infinity, -Infinity, or a finite value
(idealised as a rational; the two FP zeroes are identified). -/
inductive JsNum where
  | nan : JsNum
  | inf : JsNum
  | ninf : JsNum
  | fin : ℚ → JsNum
deriving DecidableEq

/-- JavaScript `Math.round` on a finite value: round half toward +Infinity. -/
def qRound (q : ℚ) : ℤ := ⌊q + 1/2⌋

/-- JavaScript `+` on numbers. -/
def jsAdd : JsNum → JsNum → JsNum
  | .nan, _ => .nan
  | _, .nan => .nan
  | .inf, .ninf => .nan
  | .ninf, .inf => .nan
  | .inf, _ => .inf
  | _, .inf => .inf
  | .ninf, _ => .ninf
  | _, .ninf => .ninf
  | .fin a, .fin b => .fin (a + b)

/-- JavaScript `*` on numbers. -/
def jsMul : JsNum → JsNum → JsNum
  | .nan, _ => .nan
  | _, .nan => .nan
  | .inf, .inf => .inf
  | .inf, .ninf => .ninf
  | .ninf, .inf => .ninf
  | .ninf, .ninf => .inf
  | .inf, .fin b => if b = 0 then .nan else if 0 < b then .inf else .ninf
  | .fin a, .inf => if a = 0 then .nan else if 0 < a then .inf else .ninf
  | .ninf, .fin b => if b = 0 then .nan else if 0 < b then .ninf else .inf
  | .fin a, .ninf => if a = 0 then .nan else if 0 < a then .ninf else .inf
  | .fin a, .fin b => .fin (a * b)

/-- JavaScript `/` on numbers (0/0 is NaN, x/0 for x ≠ 0 is a signed
infinity; the model has no signed zero). -/
def jsDiv : JsNum → JsNum → JsNum
  | .nan, _ => .nan
  | _, .nan => .nan
  | .inf, .inf => .nan
  | .inf, .ninf => .nan
  | .ninf, .inf => .nan
  | .ninf, .ninf => .nan
  | .inf, .fin b => if 0 ≤ b then .inf else .ninf
  | .ninf, .fin b => if 0 ≤ b then .ninf else .inf
  | .fin _, .inf => .fin 0
  | .fin _, .ninf => .fin 0
  | .fin a, .fin b =>
      if b = 0 then (if a = 0 then .nan else if 0 < a then .inf else .ninf)
      else .fin (a / b)

/-- JavaScript `Math.abs`. -/
def jsAbs : JsNum → JsNum
  | .nan => .nan
  | .inf => .inf
  | .ninf => .inf
  | .fin a => .fin |a|

/-- JavaScript `Math.min` of two numbers (NaN if either argument is NaN). -/
def jsMin : JsNum → JsNum → JsNum
  | .nan, _ => .nan
  | _, .nan => .nan
  | .ninf, _ => .ninf
  | _, .ninf => .ninf
  | .inf, x => x
  | x, .inf => x
  | .fin a, .fin b => .fin (min a b)

/-- JavaScript `Math.round` as a JsNum operation. -/
def jsRound : JsNum → JsNum
  | .nan => .nan
  | .inf => .inf
  | .ninf => .ninf
  | .fin a => .fin (qRound a)

/-- JavaScript `<` on numbers (false whenever either side is NaN). -/
def jsLt : JsNum → JsNum → Bool
  | .nan, _ => false
  | _, .nan => false
  | .ninf, .ninf => false
  | .ninf, _ => true
  | _, .ninf => false
  | .inf, _ => false
  | _, .inf => true
  | .fin a, .fin b => decide (a < b)

/-- `array.reduce((a, b) => a + b, 0)` over JavaScript numbers. -/
def jsSum (l : List JsNum) : JsNum := l.foldl jsAdd (.fin 0)

/-- JavaScript `q % m === 0` for finite values: q is an integer multiple
of m. -/
def qMultipleOf (q m : ℚ) : Bool := decide ((q / m).den = 1)

/-! ## Data model (the `interface` declarations of the source) -/

/-- `interface OrderBook`: bids and asks as (price, size) pairs plus a
capture timestamp. -/
structure OrderBook where
  bids : List (ℚ × ℚ)
  asks : List (ℚ × ℚ)
  timestamp : ℚ
deriving DecidableEq

/-- Side of a whale order (the string literals BID and ASK). -/
inductive Side where
  | BID : Side
  | ASK : Side
deriving DecidableEq

/-- `interface WhaleOrder`. -/
structure WhaleOrder where
  exchange : String
  side : Side
  price : ℚ
  size : ℚ
deriving DecidableEq

/-- `interface ExchangeData`.  The `imbalance` field is a `JsNum` because
`analyzeOrderBook` can produce NaN there. -/
structure ExchangeData where
  price : ℚ
  imbalance : JsNum
  bidDepth : ℚ
  askDepth : ℚ
  timestamp : ℚ
deriving DecidableEq

/-- The record returned by `analyzeOrderBook`. -/
structure BookAnalysis where
  imbalance : JsNum
  bidDepth : ℚ
  askDepth : ℚ
  midPrice : ℚ
  whales : List WhaleOrder
deriving DecidableEq

/-! ## Book Analyzer (`analyzeOrderBook`, index.ts lines 547-577) -/

/-- `analyzeOrderBook(book, whaleThreshold)`: depth over the top-10 levels
per side, `imbalance = (bidDepth - askDepth) / (bidDepth + askDepth)` (a
JavaScript division, NaN when both depths are 0), mid price from the best
bid/ask, and the whale orders from the top-20 levels of each side. -/
def analyzeOrderBook (book : OrderBook) (whaleThreshold : ℚ) : BookAnalysis :=
  let bidDepth := (book.bids.take 10).foldl (fun s p => s + p.2) 0
  let askDepth := (book.asks.take 10).foldl (fun s p => s + p.2) 0
  let imbalance := jsDiv (.fin (bidDepth - askDepth)) (.fin (bidDepth + askDepth))
  let midPrice :=
    if book.bids ≠ [] ∧ book.asks ≠ [] then
      (book.bids.headI.1 + book.asks.headI.1) / 2
    else 0
  let bidWhales := (book.bids.take 20).filterMap fun p =>
    if whaleThreshold ≤ p.2 then some ⟨"", Side.BID, p.1, p.2⟩ else none
  let askWhales := (book.asks.take 20).filterMap fun p =>
    if whaleThreshold ≤ p.2 then some ⟨"", Side.ASK, p.1, p.2⟩ else none
  ⟨imbalance, bidDepth, askDepth, midPrice, bidWhales ++ askWhales⟩

/-- An order book with no levels at all (what the Hyperliquid adapter
produces when the venue responds without a `levels` field). -/
def emptyBook : OrderBook := ⟨[], [], 0⟩

/-! ## Level Detector (`detectLevels`, index.ts lines 580-675) -/

/-- The level type: wall, round, or cluster (string literals in the source). -/
inductive LevelType where
  | wall : LevelType
  | round : LevelType
  | cluster : LevelType
deriving DecidableEq

/-- `interface SupportLevel`. -/
structure SupportLevel where
  price : ℚ
  strength : ℚ
  type : LevelType
  totalSize : ℚ
  exchangeCount : Nat
  isRoundNumber : Bool
deriving DecidableEq

/-- The per-bucket accumulator of `detectLevels`
(`{ size, hasHL, hasOKX, hasKraken }`). -/
structure LevelAcc where
  size : ℚ
  hasHL : Bool
  hasOKX : Bool
  hasKraken : Bool
deriving DecidableEq

/-- One of the three venues, used to pick which presence flag an order
sets. -/
inductive Venue where
  | hl : Venue
  | okx : Venue
  | kraken : Venue
deriving DecidableEq

/-- Which side of the book `detectLevels` works on (the string literals bids and asks). -/
inductive BookSide where
  | bids : BookSide
  | asks : BookSide
deriving DecidableEq

def LevelAcc.markVenue (a : LevelAcc) : Venue → LevelAcc
  | .hl => { a with hasHL := true }
  | .okx => { a with hasOKX := true }
  | .kraken => { a with hasKraken := true }

/-- `levels.get(roundedPrice) || default` followed by `levels.set(...)` on a
JavaScript `Map`: modify the entry in place if the key exists, else append
(a JS Map iterates in first-insertion order). -/
def mapUpsert (m : List (ℚ × LevelAcc)) (k : ℚ) (f : LevelAcc → LevelAcc) :
    List (ℚ × LevelAcc) :=
  match m with
  | [] => [(k, f ⟨0, false, false, false⟩)]
  | (k', a) :: rest =>
      if k' = k then (k', f a) :: rest else (k', a) :: mapUpsert rest k f

/-- The per-venue accumulation loop of `detectLevels`: round the price of each order to the bucket and add its size, setting the presence flag of that venue. -/
def accumulateOrders (roundTo : ℚ) (v : Venue) (side : BookSide)
    (book : Option OrderBook) (m : List (ℚ × LevelAcc)) : List (ℚ × LevelAcc) :=
  match book with
  | none => m
  | some bk =>
      let orders := match side with | .bids => bk.bids | .asks => bk.asks
      orders.foldl
        (fun acc p =>
          let roundedPrice := (qRound (p.1 / roundTo) : ℚ) * roundTo
          mapUpsert acc roundedPrice
            (fun e => LevelAcc.markVenue { e with size := e.size + p.2 } v))
        m

/-- `hlBook?.bids[0]?.[0] || okxBook?.bids[0]?.[0] || krakenBook?.bids[0]?.[0] || 0`:
the first truthy best-bid price (a best bid of 0 falls through, like any
falsy JavaScript value). -/
def firstBestBid : List (Option OrderBook) → ℚ
  | [] => 0
  | none :: rest => firstBestBid rest
  | some bk :: rest =>
      match bk.bids with
      | [] => firstBestBid rest
      | p :: _ => if p.1 = 0 then firstBestBid rest else p.1

/-- The scoring loop of `detectLevels`: drop buckets more than 5% from the
reference mid price, then score size (≤ 50), cross-venue presence (+15 for
≥ 2 venues, +15 more for 3), round numbers (+30), clamp to 100, and classify
the type of the bucket. -/
def scoreBuckets (asset : String) (midPrice : ℚ) (m : List (ℚ × LevelAcc)) :
    List SupportLevel :=
  m.filterMap fun e =>
    if 0 < midPrice ∧ 1/20 < |e.1 - midPrice| / midPrice then none
    else
      let sizeThreshold : ℚ := if asset = "BTC" then 10 else 100
      let s1 : ℚ := min 50 (e.2.size / sizeThreshold * 50)
      let exchangeCount : Nat :=
        (if e.2.hasHL then 1 else 0) + (if e.2.hasOKX then 1 else 0) +
          (if e.2.hasKraken then 1 else 0)
      let s2 : ℚ := s1 + (if 2 ≤ exchangeCount then 15 else 0)
      let s3 : ℚ := s2 + (if exchangeCount = 3 then 15 else 0)
      let isRoundNumber : Bool :=
        if asset = "BTC" then qMultipleOf e.1 1000 else qMultipleOf e.1 100
      let s4 : ℚ := s3 + (if isRoundNumber then 30 else 0)
      let levelType : LevelType :=
        if sizeThreshold * 2 ≤ e.2.size then .wall
        else if isRoundNumber then .round
        else .cluster
      some ⟨e.1, min 100 (qRound s4 : ℚ), levelType,
        (qRound (e.2.size * 100) : ℚ) / 100, exchangeCount, isRoundNumber⟩

/-- `detectLevels(hlBook, okxBook, krakenBook, side, asset)`: bucket all
orders of the chosen side across the three (nullable) books, score each
bucket, sort by descending strength (stable, as the sort of the V8 runtime) and keep
the top 5. -/
def detectLevels (hlBook okxBook krakenBook : Option OrderBook)
    (side : BookSide) (asset : String) : List SupportLevel :=
  let midPrice := firstBestBid [hlBook, okxBook, krakenBook]
  let roundTo : ℚ := if asset = "BTC" then 100 else 10
  let m := accumulateOrders roundTo .kraken side krakenBook
    (accumulateOrders roundTo .okx side okxBook
      (accumulateOrders roundTo .hl side hlBook []))
  ((scoreBuckets asset midPrice m).mergeSort
    (fun a b => decide (b.strength ≤ a.strength))).take 5

/-! ## Whale Consensus Scorer (`calculateWhaleConsensus`, lines 678-732) -/

/-- `WhaleConsensus.signal`. -/
inductive WhaleSignal where
  | LONG : WhaleSignal
  | SHORT : WhaleSignal
  | NEUTRAL : WhaleSignal
deriving DecidableEq

/-- `interface WhaleConsensus`. -/
structure WhaleConsensus where
  signal : WhaleSignal
  bidSize : ℚ
  askSize : ℚ
  bidCount : Nat
  askCount : Nat
  exchangesWithBids : Nat
  exchangesWithAsks : Nat
  strength : ℚ
deriving DecidableEq

/-- `calculateWhaleConsensus(whaleOrders)`.  The source computes `bidRatio`
inside the `totalSize > 0` guard and mutates `signal`/`strength` in nested
ifs; here the guard is the first conjunct of each branch condition (the
division is never semantically used when `totalSize = 0`), and the two
sequential `strength += 15` updates - which fire only for the matching
signal - are the final if/else chain. -/
def calculateWhaleConsensus (whaleOrders : List WhaleOrder) : WhaleConsensus :=
  let bids := whaleOrders.filter fun w => w.side = Side.BID
  let asks := whaleOrders.filter fun w => w.side = Side.ASK
  let bidSize := bids.foldl (fun s w => s + w.size) 0
  let askSize := asks.foldl (fun s w => s + w.size) 0
  let exchangesWithBids := ((bids.map (·.exchange)).dedup).length
  let exchangesWithAsks := ((asks.map (·.exchange)).dedup).length
  let totalSize := bidSize + askSize
  let bidFrac := bidSize / totalSize
  let longCond := 0 < totalSize ∧ 3/5 < bidFrac ∧ 2 ≤ exchangesWithBids
  let shortCond := 0 < totalSize ∧ bidFrac < 2/5 ∧ 2 ≤ exchangesWithAsks
  let signal : WhaleSignal :=
    if longCond then .LONG else if shortCond then .SHORT else .NEUTRAL
  let strengthBase : ℚ :=
    if longCond then
      min 100 (qRound ((bidFrac - 1/2) * 100 + exchangesWithBids * 15 +
        (if 3 ≤ bids.length then (10 : ℚ) else 0)) : ℤ)
    else if shortCond then
      min 100 (qRound ((1/2 - bidFrac) * 100 + exchangesWithAsks * 15 +
        (if 3 ≤ asks.length then (10 : ℚ) else 0)) : ℤ)
    else 0
  let strength : ℚ :=
    if signal = .LONG ∧ exchangesWithBids = 3 then min 100 (strengthBase + 15)
    else if signal = .SHORT ∧ exchangesWithAsks = 3 then min 100 (strengthBase + 15)
    else strengthBase
  ⟨signal, (qRound (bidSize * 100) : ℚ) / 100, (qRound (askSize * 100) : ℚ) / 100,
    bids.length, asks.length, exchangesWithBids, exchangesWithAsks, strength⟩

/-! ## Trend Tracker (`calculateTrend`, index.ts lines 932-962) -/

/-- `interface ImbalanceEntry` (the imbalances are averages of
`analyzeOrderBook` imbalances, hence `JsNum`). -/
structure ImbalanceEntry where
  timestamp : ℚ
  btcImbalance : JsNum
  ethImbalance : JsNum
deriving DecidableEq

/-- The asset key of `calculateTrend`: btc or eth (string literals in the source). -/
inductive AssetKey where
  | btc : AssetKey
  | eth : AssetKey
deriving DecidableEq

/-- The trend classification: BULLISH, BEARISH, or NEUTRAL (string literals). -/
inductive Trend where
  | BULLISH : Trend
  | BEARISH : Trend
  | NEUTRAL : Trend
deriving DecidableEq

/-- The `{ avg, trend }` record returned by `calculateTrend`. -/
structure TrendResult where
  avg : JsNum
  trend : Trend
deriving DecidableEq

/-- The per-asset imbalance of a history entry. -/
def entryImbalance (asset : AssetKey) (h : ImbalanceEntry) : JsNum :=
  match asset with
  | .btc => h.btcImbalance
  | .eth => h.ethImbalance

/-- `calculateTrend(history, asset)`: filter the history to the last 15
minutes (relative to `now`, which stands for `Date.now()`), average the imbalance
of the asset over the window, and classify BULLISH/BEARISH only when more than
60% of the readings clear ±0.05 and the average does too. -/
def calculateTrend (history : List ImbalanceEntry) (asset : AssetKey) (now : ℚ) :
    TrendResult :=
  if history.length = 0 then ⟨.fin 0, .NEUTRAL⟩
  else
    let fifteenMinAgo := now - 15 * 60 * 1000
    let recent := history.filter fun h => fifteenMinAgo < h.timestamp
    if recent.length = 0 then ⟨.fin 0, .NEUTRAL⟩
    else
      let total := recent.foldl (fun s h => jsAdd s (entryImbalance asset h)) (.fin 0)
      let avg := jsDiv total (.fin recent.length)
      let bullishCount := recent.countP fun h => jsLt (.fin (1/20)) (entryImbalance asset h)
      let bearishCount := recent.countP fun h => jsLt (entryImbalance asset h) (.fin (-(1/20)))
      let totalCount := recent.length
      if 3/5 < (bullishCount : ℚ) / totalCount ∧ jsLt (.fin (1/20)) avg then
        ⟨avg, .BULLISH⟩
      else if 3/5 < (bearishCount : ℚ) / totalCount ∧ jsLt avg (.fin (-(1/20))) then
        ⟨avg, .BEARISH⟩
      else ⟨avg, .NEUTRAL⟩

/-! ## Signal Synthesizer (`generateSignal`, index.ts lines 735-816) -/

/-- The signal action: LONG, SHORT, or WAIT (string literals in the source). -/
inductive SignalAction where
  | LONG : SignalAction
  | SHORT : SignalAction
  | WAIT : SignalAction
deriving DecidableEq

/-- `interface Signal`. -/
structure Signal where
  asset : String
  action : SignalAction
  confidence : JsNum
  hyperliquid : ExchangeData
  okx : ExchangeData
  kraken : ExchangeData
  crossExchangeSpread : ℚ
  combinedImbalance : JsNum
  imbalance15m : JsNum
  trend : Trend
  whaleOrders : List WhaleOrder
  whaleConsensus : WhaleConsensus
  supportLevels : List SupportLevel
  resistanceLevels : List SupportLevel
  timestamp : ℚ
deriving DecidableEq

/-- The `emptyData` record generateSignal substitutes for a missing venue
(`{ price: 0, imbalance: 0, bidDepth: 0, askDepth: 0, timestamp: now }`). -/
def emptyData (now : ℚ) : ExchangeData := ⟨0, .fin 0, 0, 0, now⟩

/-- `generateSignal(asset, hlData, okxData, krakenData, whaleOrders,
supportLevels, resistanceLevels, imbalance15m, trend)` with `now` the
`Date.now()` of the source.  The source mutates `action` and `confidence` in the
same if/else chain; here the chain is written once for each variable with
identical conditions.  The boost block mutates `confidence` three times in
sequence, modelled by the nested lets. -/
def generateSignal (asset : String) (hlData okxData krakenData : Option ExchangeData)
    (whaleOrders : List WhaleOrder) (supportLevels resistanceLevels : List SupportLevel)
    (imbalance15m : JsNum) (trend : Trend) (now : ℚ) : Signal :=
  let hl := hlData.getD (emptyData now)
  let okx := okxData.getD (emptyData now)
  let kraken := krakenData.getD (emptyData now)
  let spread : ℚ :=
    if 0 < hl.price ∧ 0 < okx.price then (hl.price - okx.price) / okx.price * 10000
    else 0
  let validExchanges := [hlData, okxData, krakenData].reduceOption
  let combinedImbalance :=
    if 0 < validExchanges.length then
      jsDiv (jsSum (validExchanges.map (·.imbalance))) (.fin validExchanges.length)
    else .fin 0
  let action : SignalAction :=
    if trend = Trend.BULLISH ∧ jsLt (.fin (1/10)) imbalance15m then .LONG
    else if trend = Trend.BEARISH ∧ jsLt imbalance15m (.fin (-(1/10))) then .SHORT
    else .WAIT
  let conf1 : JsNum :=
    if trend = Trend.BULLISH ∧ jsLt (.fin (1/10)) imbalance15m then
      jsMin (.fin 95) (jsAdd (.fin 50) (jsMul imbalance15m (.fin 150)))
    else if trend = Trend.BEARISH ∧ jsLt imbalance15m (.fin (-(1/10))) then
      jsMin (.fin 95) (jsAdd (.fin 50) (jsMul (jsAbs imbalance15m) (.fin 150)))
    else jsMul (jsAbs imbalance15m) (.fin 100)
  let confidence : JsNum :=
    if action ≠ SignalAction.WAIT then
      let c1 :=
        if (action = SignalAction.LONG ∧ jsLt (.fin (1/10)) combinedImbalance) ∨
            (action = SignalAction.SHORT ∧ jsLt combinedImbalance (.fin (-(1/10)))) then
          jsMin (.fin 95) (jsAdd conf1 (.fin 10))
        else conf1
      let agreeing : Nat :=
        (if hlData.isSome ∧ ((action = SignalAction.LONG ∧ jsLt (.fin 0) hl.imbalance) ∨
            (action = SignalAction.SHORT ∧ jsLt hl.imbalance (.fin 0))) then 1 else 0) +
        (if okxData.isSome ∧ ((action = SignalAction.LONG ∧ jsLt (.fin 0) okx.imbalance) ∨
            (action = SignalAction.SHORT ∧ jsLt okx.imbalance (.fin 0))) then 1 else 0) +
        (if krakenData.isSome ∧ ((action = SignalAction.LONG ∧ jsLt (.fin 0) kraken.imbalance) ∨
            (action = SignalAction.SHORT ∧ jsLt kraken.imbalance (.fin 0))) then 1 else 0)
      let c2 := if 2 ≤ agreeing then jsMin (.fin 95) (jsAdd c1 (.fin 10)) else c1
      if agreeing = 3 then jsMin (.fin 95) (jsAdd c2 (.fin 5)) else c2
    else conf1
  { asset := asset
    action := action
    confidence := jsRound confidence
    hyperliquid := hl
    okx := okx
    kraken := kraken
    crossExchangeSpread := (qRound (spread * 10) : ℚ) / 10
    combinedImbalance := jsDiv (jsRound (jsMul combinedImbalance (.fin 1000))) (.fin 1000)
    imbalance15m := jsDiv (jsRound (jsMul imbalance15m (.fin 1000))) (.fin 1000)
    trend := trend
    whaleOrders := whaleOrders
    whaleConsensus := calculateWhaleConsensus whaleOrders
    supportLevels := supportLevels
    resistanceLevels := resistanceLevels
    timestamp := now }

/-! ## The fetch-and-synthesize pipeline (`fetchAllData`, lines 819-922, and
`OrderFlowDO.fetchWithTrend`, lines 992-1117).

The six venue fetches are network calls; their joined results enter the
embedding as six `Option OrderBook` values (a failed or absent venue is
`none`, exactly what the adapters return past the `catch`).  Both source
functions then run the same pure body: analyze each book, build per-venue
`ExchangeData`, tag and collect whale orders, detect levels, and synthesize
the two signals - `fetchWithTrend` additionally records the instantaneous
imbalances into the history and computes the 15-minute trends first. -/

/-- The six joined order-book fetch results of one cycle. -/
structure Books where
  hlBtc : Option OrderBook
  hlEth : Option OrderBook
  okxBtc : Option OrderBook
  okxEth : Option OrderBook
  krakenBtc : Option OrderBook
  krakenEth : Option OrderBook
deriving DecidableEq

/-- Per-venue `ExchangeData` built from an analysis (present exactly when
the book is; the timestamp is that of the book). -/
def toExchangeData (book : Option OrderBook) (whaleThreshold : ℚ) :
    Option ExchangeData :=
  match book with
  | none => none
  | some bk =>
      let a := analyzeOrderBook bk whaleThreshold
      some ⟨a.midPrice, a.imbalance, a.bidDepth, a.askDepth, bk.timestamp⟩

/-- `analysis.whales.forEach(w => { w.exchange = name; whales.push(w) })`. -/
def taggedWhales (book : Option OrderBook) (whaleThreshold : ℚ) (name : String) :
    List WhaleOrder :=
  match book with
  | none => []
  | some bk =>
      (analyzeOrderBook bk whaleThreshold).whales.map fun w => { w with exchange := name }

/-- The slice of the common pipeline body for one asset: exchange data, whale
collection (Hyperliquid, then OKX, then Kraken), level detection on both
sides, and the final `generateSignal` call. -/
def synthesizeSignal (asset : String) (whaleThreshold : ℚ)
    (hl okx kraken : Option OrderBook) (avg : JsNum) (trend : Trend) (now : ℚ) :
    Signal :=
  generateSignal asset
    (toExchangeData hl whaleThreshold)
    (toExchangeData okx whaleThreshold)
    (toExchangeData kraken whaleThreshold)
    (taggedWhales hl whaleThreshold "Hyperliquid" ++
      taggedWhales okx whaleThreshold "OKX" ++
      taggedWhales kraken whaleThreshold "Kraken")
    (detectLevels hl okx kraken .bids asset)
    (detectLevels hl okx kraken .asks asset)
    avg trend now

/-- The `{ btc, eth }` signal pair both pipeline functions return. -/
structure SignalPair where
  btc : Signal
  eth : Signal
deriving DecidableEq

/-- `fetchAllData()` after the joins: the REST fallback pipeline, which
calls `generateSignal` with its default `imbalance15m = 0` and
`trend = NEUTRAL` (BTC whale threshold 5, ETH 50). -/
def fetchAllData (b : Books) (now : ℚ) : SignalPair :=
  ⟨synthesizeSignal "BTC" 5 b.hlBtc b.okxBtc b.krakenBtc (.fin 0) .NEUTRAL now,
   synthesizeSignal "ETH" 50 b.hlEth b.okxEth b.krakenEth (.fin 0) .NEUTRAL now⟩

/-- The instantaneous per-asset imbalance `fetchWithTrend` records: the
average of the analyzer imbalances of the venues that responded, 0 when
none did. -/
def currentImbalance (hl okx kraken : Option OrderBook) (whaleThreshold : ℚ) :
    JsNum :=
  let imbs := ([hl, okx, kraken].map
    (Option.map fun bk => (analyzeOrderBook bk whaleThreshold).imbalance)).reduceOption
  if 0 < imbs.length then jsDiv (jsSum imbs) (.fin imbs.length) else .fin 0

/-- `OrderFlowDO.fetchWithTrend()` after the joins: record the current
imbalances into the history, trim the history to the last 20 minutes,
compute the two 15-minute trends, and run the common pipeline body with
them.  Returns the signal pair and the updated history. -/
def fetchWithTrend (history : List ImbalanceEntry) (b : Books) (now : ℚ) :
    SignalPair × List ImbalanceEntry :=
  let btcImbalance := currentImbalance b.hlBtc b.okxBtc b.krakenBtc 5
  let ethImbalance := currentImbalance b.hlEth b.okxEth b.krakenEth 50
  let pushed := history ++ [⟨now, btcImbalance, ethImbalance⟩]
  let twentyMinAgo := now - 20 * 60 * 1000
  let trimmed := pushed.filter fun h => twentyMinAgo < h.timestamp
  let btcTrend := calculateTrend trimmed .btc now
  let ethTrend := calculateTrend trimmed .eth now
  (⟨synthesizeSignal "BTC" 5 b.hlBtc b.okxBtc b.krakenBtc btcTrend.avg btcTrend.trend now,
    synthesizeSignal "ETH" 50 b.hlEth b.okxEth b.krakenEth ethTrend.avg ethTrend.trend now⟩,
   trimmed)

/-! ## The aggregation actor (`OrderFlowDO`, lines 965-1185) -/

/-- The mutable state owned by the actor: the last published signal pair, the
imbalance history, and the registered WebSocket sessions (subscribers,
abstracted to identifiers). -/
structure DOState where
  lastData : Option SignalPair
  imbalanceHistory : List ImbalanceEntry
  sessions : List Nat
deriving DecidableEq

/-- The REST branch of `OrderFlowDO.fetch` (lines 1149-1168): return the
stored pair if present; otherwise run `fetchAllData` on the joined fetch
results, store the result into `lastData`, and return it. -/
def handleRestRead (st : DOState) (b : Books) (now : ℚ) : SignalPair × DOState :=
  match st.lastData with
  | some d => (d, st)
  | none =>
      let d := fetchAllData b now
      (d, { st with lastData := some d })

/-- One iteration of the `while (true)` body of `startPolling` (lines 981-989).
The try block either completes - `fetchWithTrend` ran on the joined fetch
results of that cycle, `lastData` is replaced wholesale, and the broadcast prunes
every session whose `send` threw - or throws, in which case the catch
swallows the error and no state assignment has happened.  The fallible part of the
cycle is its outcome argument; `failedSends` are the sessions whose
`ws.send` fails during the broadcast. -/
def pollCycle (st : DOState) (outcome : Except Unit (Books × ℚ))
    (failedSends : List Nat) : DOState :=
  match outcome with
  | .error _ => st
  | .ok (b, now) =>
      let r := fetchWithTrend st.imbalanceHistory b now
      { lastData := some r.1
        imbalanceHistory := r.2
        sessions := st.sessions.filter fun s => s ∉ failedSends }

/-- The polling loop itself: one `pollCycle` per 2-second tick, each tick
bringing its own outcome and send failures. -/
def pollLoop (st : DOState) (steps : List (Except Unit (Books × ℚ) × List Nat)) :
    DOState :=
  steps.foldl (fun s step => pollCycle s step.1 step.2) st

/-- All six venues absent (every fetch failed or returned nothing). -/
def noBooks : Books := ⟨none, none, none, none, none, none⟩

/-! ## Supporting definitions for the theorems -/

/-- A signal with every timestamp field erased (the top-level one and those
of the three per-venue records): two signals are equal up to timestamps
exactly when their `stripTimes` views are equal. -/
def stripTimes (s : Signal) : Signal :=
  { s with
    timestamp := 0
    hyperliquid := { s.hyperliquid with timestamp := 0 }
    okx := { s.okx with timestamp := 0 }
    kraken := { s.kraken with timestamp := 0 } }

/-- A history all of whose imbalance readings are finite, given by
(timestamp, btc reading, eth reading) rationals. -/
def mkFinHistory (l : List (ℚ × ℚ × ℚ)) : List ImbalanceEntry :=
  l.map fun t => ⟨t.1, .fin t.2.1, .fin t.2.2⟩

/-- The per-asset rational reading of such a history record. -/
def qReading (asset : AssetKey) (t : ℚ × ℚ × ℚ) : ℚ :=
  match asset with
  | .btc => t.2.1
  | .eth => t.2.2

/-- A synthetic venue book holding a single bid of 12 units at exactly
96000. -/
def bookAt96000 : OrderBook := ⟨[(96000, 12)], [], 0⟩

/-- The level the detector is expected to report for two such books:
a wall of aggregated size 24 at the round bucket 96000, seen on 2 venues,
with strength 95. -/
def wallLevel96000 : SupportLevel := ⟨96000, 95, .wall, 24, 2, true⟩

/-- A prior history with two recent strongly bid-heavy BTC readings
(timestamps just before `now = 1800000`). -/
def bullishHistory : List ImbalanceEntry :=
  [⟨1799000, .fin (1/2), .fin 0⟩, ⟨1799500, .fin (1/2), .fin 0⟩]

/-! ## Helper lemmas -/

theorem jsAdd_fin (a b : ℚ) : jsAdd (.fin a) (.fin b) = .fin (a + b) := rfl

theorem jsMul_fin (a b : ℚ) : jsMul (.fin a) (.fin b) = .fin (a * b) := rfl

theorem jsAbs_fin (a : ℚ) : jsAbs (.fin a) = .fin |a| := rfl

theorem jsMin_fin (a b : ℚ) : jsMin (.fin a) (.fin b) = .fin (min a b) := rfl

theorem jsRound_fin (a : ℚ) : jsRound (.fin a) = .fin (qRound a) := rfl

theorem jsLt_fin (a b : ℚ) : jsLt (.fin a) (.fin b) = decide (a < b) := rfl

theorem fin_ite (p : Prop) [Decidable p] (x y : ℚ) :
    (if p then JsNum.fin x else JsNum.fin y) = .fin (if p then x else y) := by
  split <;> rfl

theorem qRound_nonneg {q : ℚ} (h : 0 ≤ q) : 0 ≤ qRound q := by
  apply Int.le_floor.mpr
  push_cast
  linarith

theorem qRound_le {q : ℚ} {B : ℤ} (h : q ≤ B) : qRound q ≤ B := by
  rw [qRound, Int.floor_le_iff]
  linarith

/-- One `confidence = Math.min(95, confidence + k)` boost step keeps the
confidence in [0, 95]. -/
theorem confStep (p : Prop) [Decidable p] {x : ℚ} (y : ℚ)
    (hx : 0 ≤ x ∧ x ≤ 95) (hy : 0 ≤ y) :
    0 ≤ (if p then min 95 (x + y) else x) ∧ (if p then min 95 (x + y) else x) ≤ 95 := by
  split
  · exact ⟨le_min (by norm_num) (by linarith), min_le_left _ _⟩
  · exact hx

theorem whale_foldl_size (l : List WhaleOrder) (q : ℚ) :
    l.foldl (fun s w => s + w.size) q = q + (l.map WhaleOrder.size).sum := by
  induction l generalizing q with
  | nil => simp
  | cons a t ih =>
      simp only [List.foldl_cons, List.map_cons, List.sum_cons, ih (q + a.size)]
      ring

/-! ## Claim theorems -/

/-- C1: the claim says the imbalance of the Book Analyzer is defined as 0 when
both top-10 depths are 0, with no division-by-zero fault, and is always in
[-1, 1].  The source divides `(bidDepth - askDepth) / (bidDepth + askDepth)`
with no guard, so the order book with empty bids and asks - which the
Hyperliquid adapter really produces when the venue replies without levels -
yields the JavaScript value NaN (0/0), not 0, and NaN lies in no interval:
the code contradicts the documented zero case.  This theorem evaluates the
embedded analyzer at that failing input. -/
theorem analyzeOrderBook_empty_book_imbalance_nan :
    (analyzeOrderBook emptyBook 5).imbalance = JsNum.nan := by
  norm_num [analyzeOrderBook, emptyBook, jsDiv]

/-- C9: a polling cycle whose fallible part throws leaves the actor state -
in particular the stored signal snapshot - exactly as it was; a successful
cycle replaces the snapshot wholesale with the pair `fetchWithTrend`
computed; and the final state of the polling loop is the same as if the erroring
cycles had not happened at all (the loop continues). -/
theorem pollCycle_error_preserves_state :
    (∀ (st : DOState) (e : Unit) (failedSends : List Nat),
      pollCycle st (.error e) failedSends = st) ∧
    (∀ (st : DOState) (b : Books) (now : ℚ) (failedSends : List Nat),
      (pollCycle st (.ok (b, now)) failedSends).lastData =
        some (fetchWithTrend st.imbalanceHistory b now).1) ∧
    (∀ (st : DOState) (steps : List (Except Unit (Books × ℚ) × List Nat)),
      pollLoop st steps = pollLoop st (steps.filter fun s => s.1.isOk)) := by
  refine ⟨fun st e failedSends => rfl, fun st b now failedSends => rfl,
    fun st steps => ?_⟩
  induction steps generalizing st with
  | nil => rfl
  | cons hd tl ih =>
      obtain ⟨outcome, failedSends⟩ := hd
      cases outcome with
      | error e => simpa [pollLoop, pollCycle, Except.isOk] using ih st
      | ok p =>
          simpa [pollLoop, pollCycle, Except.isOk]
            using ih (pollCycle st (.ok p) failedSends)

/-- C3 counterexample: the claim says a synchronous read with no stored
signal pair leaves all actor state - including the stored last-signal
field - unchanged.  At the concrete initial state (no last data, empty
history, no sessions) the REST read handler in fact stores the freshly
fetched pair into the last-signal field, so that field does change. -/
theorem restRead_stores_fetched_pair :
    (handleRestRead ⟨none, [], []⟩ noBooks 0).2.lastData ≠
      (⟨none, [], []⟩ : DOState).lastData := by
  simp [handleRestRead]

/-- C3 (amended): a synchronous read arriving when no signal pair is stored
runs a one-off `fetchAllData` pass (whose synthesis uses the default
NEUTRAL trend) and returns its result; it leaves the imbalance history and
the subscriber registry unchanged, but it does mutate the stored
last-signal field, setting it to the fetched pair. -/
theorem restRead_one_off_pass (st : DOState) (b : Books) (now : ℚ)
    (h : st.lastData = none) :
    (handleRestRead st b now).1 = fetchAllData b now ∧
    (handleRestRead st b now).2.imbalanceHistory = st.imbalanceHistory ∧
    (handleRestRead st b now).2.sessions = st.sessions ∧
    (handleRestRead st b now).2.lastData = some (fetchAllData b now) ∧
    (fetchAllData b now).btc.trend = Trend.NEUTRAL ∧
    (fetchAllData b now).eth.trend = Trend.NEUTRAL := by
  refine ⟨?_, ?_, ?_, ?_, ?_, ?_⟩ <;>
    simp [handleRestRead, h, fetchAllData, synthesizeSignal, generateSignal]

/-- C3 witness: the amended statement at the concrete empty actor state. -/
theorem restRead_one_off_pass_witness :
    (handleRestRead ⟨none, [], []⟩ noBooks 0).1 = fetchAllData noBooks 0 ∧
    (handleRestRead ⟨none, [], []⟩ noBooks 0).2.imbalanceHistory =
      (⟨none, [], []⟩ : DOState).imbalanceHistory ∧
    (handleRestRead ⟨none, [], []⟩ noBooks 0).2.sessions =
      (⟨none, [], []⟩ : DOState).sessions ∧
    (handleRestRead ⟨none, [], []⟩ noBooks 0).2.lastData =
      some (fetchAllData noBooks 0) ∧
    (fetchAllData noBooks 0).btc.trend = Trend.NEUTRAL ∧
    (fetchAllData noBooks 0).eth.trend = Trend.NEUTRAL :=
  restRead_one_off_pass ⟨none, [], []⟩ noBooks 0 rfl

/-- C7: the Whale Consensus Scorer returns LONG exactly when whale size is
positive, the bid share of total whale size exceeds 0.6, and at least 2
distinct venues contributed bid-side whales; SHORT exactly under the
symmetric ask-side conditions; NEUTRAL in every other case, including total
whale size 0. -/
theorem calculateWhaleConsensus_signal_characterization (w : List WhaleOrder) :
    let bidSize := (((w.filter fun o => o.side = Side.BID).map WhaleOrder.size)).sum
    let askSize := (((w.filter fun o => o.side = Side.ASK).map WhaleOrder.size)).sum
    let venuesWithBids :=
      (((w.filter fun o => o.side = Side.BID).map WhaleOrder.exchange).dedup).length
    let venuesWithAsks :=
      (((w.filter fun o => o.side = Side.ASK).map WhaleOrder.exchange).dedup).length
    ((calculateWhaleConsensus w).signal = .LONG ↔
      0 < bidSize + askSize ∧ 3/5 < bidSize / (bidSize + askSize) ∧
        2 ≤ venuesWithBids) ∧
    ((calculateWhaleConsensus w).signal = .SHORT ↔
      0 < bidSize + askSize ∧ bidSize / (bidSize + askSize) < 2/5 ∧
        2 ≤ venuesWithAsks) ∧
    ((calculateWhaleConsensus w).signal = .NEUTRAL ↔
      ¬(0 < bidSize + askSize ∧ 3/5 < bidSize / (bidSize + askSize) ∧
          2 ≤ venuesWithBids) ∧
      ¬(0 < bidSize + askSize ∧ bidSize / (bidSize + askSize) < 2/5 ∧
          2 ≤ venuesWithAsks)) := by
  intro bidSize askSize venuesWithBids venuesWithAsks
  have hL :
      (calculateWhaleConsensus w).signal =
        if 0 < bidSize + askSize ∧ 3/5 < bidSize / (bidSize + askSize) ∧
            2 ≤ venuesWithBids then .LONG
        else if 0 < bidSize + askSize ∧ bidSize / (bidSize + askSize) < 2/5 ∧
            2 ≤ venuesWithAsks then .SHORT
        else .NEUTRAL := by
    simp only [calculateWhaleConsensus, whale_foldl_size, zero_add]
  rw [hL]
  by_cases h1 : 0 < bidSize + askSize ∧ 3/5 < bidSize / (bidSize + askSize) ∧
      2 ≤ venuesWithBids
  · have hr2 : ¬(bidSize / (bidSize + askSize) < 2/5) := by
      obtain ⟨-, hr1, -⟩ := h1
      linarith
    simp [h1, hr2]
  · by_cases h2 : 0 < bidSize + askSize ∧ bidSize / (bidSize + askSize) < 2/5 ∧
        2 ≤ venuesWithAsks
    · have hr1 : ¬(3/5 < bidSize / (bidSize + askSize)) := by
        obtain ⟨-, hr2, -⟩ := h2
        linarith
      simp [h1, h2, hr1]
    · simp [h1, h2]

/-- C10 (implicit): whenever the Whale Consensus Scorer returns NEUTRAL -
in particular for an empty whale list or total whale size 0 - the returned
strength is exactly 0, so a nonzero strength only ever accompanies a LONG
or SHORT signal. -/
theorem calculateWhaleConsensus_neutral_strength_zero (w : List WhaleOrder)
    (h : (calculateWhaleConsensus w).signal = .NEUTRAL) :
    (calculateWhaleConsensus w).strength = 0 := by
  simp only [calculateWhaleConsensus] at h ⊢
  split_ifs at h ⊢ <;> simp_all

/-- C10 witness: the empty whale list is NEUTRAL with strength 0. -/
theorem calculateWhaleConsensus_neutral_strength_zero_witness :
    (calculateWhaleConsensus []).strength = 0 :=
  calculateWhaleConsensus_neutral_strength_zero []
    (by norm_num [calculateWhaleConsensus])

/-- C2 counterexample: the claim says confidence is always in [0, 95] for
any trend and any 15-minute average in [-1, 1].  With trend NEUTRAL and
average 0.99 the action stays WAIT and confidence = |0.99| x 100 = 99,
which exceeds 95. -/
theorem generateSignal_wait_confidence_exceeds_95 :
    (generateSignal "BTC" none none none [] [] [] (.fin (99/100)) .NEUTRAL 0).confidence
      = JsNum.fin 99 ∧ ¬((99 : ℚ) ≤ 95) := by
  have t1 : Trend.NEUTRAL ≠ Trend.BULLISH := by decide
  have t2 : Trend.NEUTRAL ≠ Trend.BEARISH := by decide
  constructor
  · have habs : |(99 : ℚ)/100| = 99/100 := abs_of_nonneg (by norm_num)
    norm_num [generateSignal, jsMul, jsAbs, jsRound, jsLt, qRound, t1, t2, habs]
  · norm_num

set_option maxHeartbeats 1000000 in
/-- C2 (amended): for every combination of inputs with a finite 15-minute
average a in [-1, 1], the Signal Synthesizer confidence is an integer n with
0 <= n <= 100; whenever the action is not WAIT it moreover satisfies n <= 95,
and when the action is WAIT it equals round(|a| x 100) - which is how a WAIT
confidence can legitimately land in 96..100, the corrected bound. -/
theorem generateSignal_confidence_int_bounds
    (asset : String) (hlData okxData krakenData : Option ExchangeData)
    (whales : List WhaleOrder) (sup res : List SupportLevel)
    (a : ℚ) (trend : Trend) (now : ℚ) (h1 : -1 ≤ a) (h2 : a ≤ 1) :
    ∃ n : ℤ,
      (generateSignal asset hlData okxData krakenData whales sup res (.fin a)
          trend now).confidence = .fin (n : ℚ) ∧
      0 ≤ n ∧ n ≤ 100 ∧
      ((generateSignal asset hlData okxData krakenData whales sup res (.fin a)
          trend now).action ≠ .WAIT → n ≤ 95) ∧
      ((generateSignal asset hlData okxData krakenData whales sup res (.fin a)
          trend now).action = .WAIT → n = qRound (|a| * 100)) := by
  by_cases hA : trend = Trend.BULLISH ∧ (1/10 : ℚ) < a
  · have ha : (1/10 : ℚ) < a := hA.2
    have hc0 : 0 ≤ min (95 : ℚ) (50 + a * 150) ∧ min (95 : ℚ) (50 + a * 150) ≤ 95 :=
      ⟨le_min (by norm_num) (by linarith), min_le_left _ _⟩
    have t3 : SignalAction.LONG ≠ SignalAction.SHORT := by decide
    have t4 : SignalAction.LONG ≠ SignalAction.WAIT := by decide
    simp only [generateSignal, jsLt_fin, decide_eq_true_eq, hA, and_self, if_true,
      jsAdd_fin, jsMul_fin, jsAbs_fin, jsMin_fin, fin_ite, jsRound_fin,
      ne_eq, t3, t4, not_false_eq_true, true_and, false_and, or_false, ite_true]
    refine ⟨_, rfl, ?_, ?_, fun _ => ?_, fun hw => absurd hw (by decide)⟩
    · exact qRound_nonneg (confStep _ 5 (confStep _ 10 (confStep _ 10 hc0
        (by norm_num)) (by norm_num)) (by norm_num)).1
    · exact le_trans (qRound_le (B := 95) (by exact_mod_cast (confStep _ 5
        (confStep _ 10 (confStep _ 10 hc0 (by norm_num)) (by norm_num))
        (by norm_num)).2)) (by norm_num)
    · exact qRound_le (B := 95) (by exact_mod_cast (confStep _ 5 (confStep _ 10
        (confStep _ 10 hc0 (by norm_num)) (by norm_num)) (by norm_num)).2)
  · by_cases hB : trend = Trend.BEARISH ∧ a < -(1/10 : ℚ)
    · have ha : a < -(1/10 : ℚ) := hB.2
      have habs : (1/10 : ℚ) < |a| := by
        rw [abs_of_neg (by linarith : a < 0)]
        linarith
      have hc0 : 0 ≤ min (95 : ℚ) (50 + |a| * 150) ∧ min (95 : ℚ) (50 + |a| * 150) ≤ 95 :=
        ⟨le_min (by norm_num) (by linarith), min_le_left _ _⟩
      have t3 : SignalAction.SHORT ≠ SignalAction.LONG := by decide
      have t4 : SignalAction.SHORT ≠ SignalAction.WAIT := by decide
      have t5 : Trend.BEARISH ≠ Trend.BULLISH := by decide
      simp only [generateSignal, jsLt_fin, decide_eq_true_eq, hB, hB.1, t5, and_self,
      if_true, false_and, if_false, jsAdd_fin, jsMul_fin, jsAbs_fin, jsMin_fin,
      fin_ite, jsRound_fin, ne_eq, t3, t4, not_false_eq_true, true_and, or_false,
      false_or, ite_true, ite_false]
      refine ⟨_, rfl, ?_, ?_, fun _ => ?_, fun hw => absurd hw (by decide)⟩
      · exact qRound_nonneg (confStep _ 5 (confStep _ 10 (confStep _ 10 hc0
          (by norm_num)) (by norm_num)) (by norm_num)).1
      · exact le_trans (qRound_le (B := 95) (by exact_mod_cast (confStep _ 5
          (confStep _ 10 (confStep _ 10 hc0 (by norm_num)) (by norm_num))
          (by norm_num)).2)) (by norm_num)
      · exact qRound_le (B := 95) (by exact_mod_cast (confStep _ 5 (confStep _ 10
          (confStep _ 10 hc0 (by norm_num)) (by norm_num)) (by norm_num)).2)
    · have habs : |a| ≤ 1 := abs_le.mpr ⟨h1, h2⟩
      simp only [generateSignal, jsLt_fin, decide_eq_true_eq, hA, hB, if_false,
        jsAdd_fin, jsMul_fin, jsAbs_fin, jsMin_fin, fin_ite, jsRound_fin, ne_eq,
        not_true_eq_false, ite_false, if_true]
      refine ⟨_, rfl, ?_, ?_, fun hne => hne.elim, fun _ => rfl⟩
      · exact qRound_nonneg (by positivity)
      · exact qRound_le (B := 100) (by
          have h100 : |a| * 100 ≤ 100 := by linarith
          exact_mod_cast h100)

/-- C2 witness: the amended statement at a concrete input (no venues, no
whales, average 0, trend NEUTRAL). -/
theorem generateSignal_confidence_int_bounds_witness :
    ∃ n : ℤ,
      (generateSignal "BTC" none none none [] [] [] (.fin (0 : ℚ))
          .NEUTRAL 0).confidence = .fin ((n : ℤ) : ℚ) ∧
      0 ≤ n ∧ n ≤ 100 ∧
      ((generateSignal "BTC" none none none [] [] [] (.fin (0 : ℚ))
          .NEUTRAL 0).action ≠ .WAIT → n ≤ 95) ∧
      ((generateSignal "BTC" none none none [] [] [] (.fin (0 : ℚ))
          .NEUTRAL 0).action = .WAIT → n = qRound (|(0 : ℚ)| * 100)) :=
  generateSignal_confidence_int_bounds "BTC" none none none [] [] [] 0 .NEUTRAL 0
    (by norm_num) (by norm_num)

/-- C4 counterexample: the claim says two runs of the Signal Synthesizer on
the identical frozen inputs (ExchangeData, levels, whale orders, trend,
average - the clock is not among them) give byte-identical Signals,
including the timestamp fields.  The source reads `Date.now()` inside
`generateSignal`, so two invocations at clock readings 0 and 1 with the
same frozen inputs produce different Signals (their timestamps differ). -/
theorem generateSignal_differs_across_clock_readings :
    generateSignal "BTC" none none none [] [] [] (.fin 0) .NEUTRAL 0 ≠
      generateSignal "BTC" none none none [] [] [] (.fin 0) .NEUTRAL 1 := by
  intro h
  have ht := congrArg Signal.timestamp h
  norm_num [generateSignal] at ht

/-- C4 (amended): the Signal Synthesizer is deterministic in its listed
frozen inputs up to the clock: two runs at clock readings n1 and n2 agree
on every field except the timestamps (the top-level one and those inside
the substituted empty-venue records), and the timestamp of each output is its
own clock reading.  In particular, freezing the clock too makes the two
outputs byte-identical. -/
theorem generateSignal_deterministic_up_to_timestamp
    (asset : String) (hlData okxData krakenData : Option ExchangeData)
    (whales : List WhaleOrder) (sup res : List SupportLevel)
    (avg : JsNum) (trend : Trend) (n1 n2 : ℚ) :
    stripTimes (generateSignal asset hlData okxData krakenData whales sup res
        avg trend n1) =
      stripTimes (generateSignal asset hlData okxData krakenData whales sup res
        avg trend n2) ∧
    (generateSignal asset hlData okxData krakenData whales sup res
        avg trend n1).timestamp = n1 ∧
    (generateSignal asset hlData okxData krakenData whales sup res
        avg trend n2).timestamp = n2 := by
  refine ⟨?_, by simp [generateSignal], by simp [generateSignal]⟩
  cases hlData <;> cases okxData <;> cases krakenData <;>
    simp [generateSignal, stripTimes, emptyData]

set_option maxHeartbeats 1000000 in
/-- C5 counterexample: the claim says an all-venues-absent cycle yields WAIT
signals with confidence 0 and NEUTRAL trend for every prior state of the
imbalance history.  The trend is computed over the prior history too: with
two recent strongly bid-heavy BTC readings already in the history, the
cycle with all six fetches absent still classifies BULLISH (2 of the 3
window readings exceed 0.05 and the average 1/3 exceeds both 0.05 and 0.10)
and emits a LONG signal. -/
theorem allAbsent_cycle_long_with_bullish_history :
    (fetchWithTrend bullishHistory noBooks 1800000).1.btc.action =
      SignalAction.LONG := by
  norm_num [fetchWithTrend, bullishHistory, noBooks, currentImbalance,
    calculateTrend, synthesizeSignal, generateSignal, toExchangeData,
    taggedWhales, jsSum, jsAdd, jsDiv, jsLt, entryImbalance,
    List.reduceOption, List.filter, List.countP, List.countP.go]

set_option maxHeartbeats 1000000 in
/-- C5 (amended): in a cycle where all three venues are absent for both
assets, starting from an empty imbalance history, both Signals have action
WAIT, confidence 0, trend NEUTRAL, empty support and resistance lists and
an empty whale list; and the empty-levels/empty-whales part holds for every
prior history (only action, confidence and trend depend on it). -/
theorem allAbsent_cycle_empty_history_wait (now : ℚ) (hist : List ImbalanceEntry) :
    ((fetchWithTrend [] noBooks now).1.btc.action = SignalAction.WAIT ∧
     (fetchWithTrend [] noBooks now).1.btc.confidence = .fin 0 ∧
     (fetchWithTrend [] noBooks now).1.btc.trend = Trend.NEUTRAL ∧
     (fetchWithTrend [] noBooks now).1.btc.supportLevels = [] ∧
     (fetchWithTrend [] noBooks now).1.btc.resistanceLevels = [] ∧
     (fetchWithTrend [] noBooks now).1.btc.whaleOrders = [] ∧
     (fetchWithTrend [] noBooks now).1.eth.action = SignalAction.WAIT ∧
     (fetchWithTrend [] noBooks now).1.eth.confidence = .fin 0 ∧
     (fetchWithTrend [] noBooks now).1.eth.trend = Trend.NEUTRAL ∧
     (fetchWithTrend [] noBooks now).1.eth.supportLevels = [] ∧
     (fetchWithTrend [] noBooks now).1.eth.resistanceLevels = [] ∧
     (fetchWithTrend [] noBooks now).1.eth.whaleOrders = []) ∧
    ((fetchWithTrend hist noBooks now).1.btc.supportLevels = [] ∧
     (fetchWithTrend hist noBooks now).1.btc.resistanceLevels = [] ∧
     (fetchWithTrend hist noBooks now).1.btc.whaleOrders = [] ∧
     (fetchWithTrend hist noBooks now).1.eth.supportLevels = [] ∧
     (fetchWithTrend hist noBooks now).1.eth.resistanceLevels = [] ∧
     (fetchWithTrend hist noBooks now).1.eth.whaleOrders = []) := by
  have h20 : now - 20 * 60 * 1000 < now := by linarith
  have h15 : now - 15 * 60 * 1000 < now := by linarith
  constructor
  · norm_num [fetchWithTrend, noBooks, currentImbalance, calculateTrend,
      synthesizeSignal, generateSignal, toExchangeData, taggedWhales, jsSum,
      jsAdd, jsDiv, jsLt, jsMul, jsAbs, jsRound, qRound, entryImbalance,
      List.reduceOption, List.filter, List.countP, List.countP.go, h20, h15,
      detectLevels, accumulateOrders, scoreBuckets, firstBestBid]
  · norm_num [fetchWithTrend, noBooks, synthesizeSignal, generateSignal,
      toExchangeData, taggedWhales, detectLevels, accumulateOrders,
      scoreBuckets, firstBestBid]

set_option maxHeartbeats 1000000 in
/-- C8: with exactly 2 of the 3 venues each placing a single 12-unit bid at
exactly 96000 (and no other orders), the Level Detector reports exactly one
level: price 96000, exchangeCount 2, isRoundNumber true, type wall (since
the aggregated size 24 is at least twice the BTC size unit 10), and
strength 95 (50 size-capped + 15 two-venue + 30 round) - which meets the
claimed bound of at least 95.  All three choices of the venue pair are
covered. -/
theorem detectLevels_two_venue_wall_96000 :
    detectLevels (some bookAt96000) (some bookAt96000) none .bids "BTC" =
      [wallLevel96000] ∧
    detectLevels (some bookAt96000) none (some bookAt96000) .bids "BTC" =
      [wallLevel96000] ∧
    detectLevels none (some bookAt96000) (some bookAt96000) .bids "BTC" =
      [wallLevel96000] := by
  refine ⟨?_, ?_, ?_⟩ <;>
    norm_num [detectLevels, accumulateOrders, mapUpsert, firstBestBid,
      scoreBuckets, qRound, qMultipleOf, LevelAcc.markVenue, bookAt96000,
      wallLevel96000, List.filterMap, List.mergeSort]

theorem mkFinHistory_length (l : List (ℚ × ℚ × ℚ)) :
    (mkFinHistory l).length = l.length := by
  simp [mkFinHistory]

theorem mkFinHistory_cons (a : ℚ × ℚ × ℚ) (l : List (ℚ × ℚ × ℚ)) :
    mkFinHistory (a :: l) = ⟨a.1, .fin a.2.1, .fin a.2.2⟩ :: mkFinHistory l := rfl

theorem mkFinHistory_filter (l : List (ℚ × ℚ × ℚ)) (c : ℚ) :
    (mkFinHistory l).filter (fun h => c < h.timestamp) =
      mkFinHistory (l.filter fun t => c < t.1) := by
  induction l with
  | nil => rfl
  | cons a t ih =>
      by_cases h : c < a.1
      · rw [mkFinHistory_cons, List.filter_cons_of_pos (by simpa using h),
          List.filter_cons_of_pos (by simpa using h), mkFinHistory_cons, ih]
      · rw [mkFinHistory_cons, List.filter_cons_of_neg (by simpa using h),
          List.filter_cons_of_neg (by simpa using h), ih]

theorem mkFinHistory_foldl (asset : AssetKey) (l : List (ℚ × ℚ × ℚ)) (q : ℚ) :
    (mkFinHistory l).foldl (fun s h => jsAdd s (entryImbalance asset h)) (.fin q) =
      .fin (q + (l.map (qReading asset)).sum) := by
  induction l generalizing q with
  | nil => simp [mkFinHistory]
  | cons a t ih =>
      have hacc : jsAdd (JsNum.fin q)
          (entryImbalance asset ⟨a.1, .fin a.2.1, .fin a.2.2⟩) =
          JsNum.fin (q + qReading asset a) := by
        cases asset <;> rfl
      simp only [mkFinHistory_cons, List.foldl_cons, hacc, ih, List.map_cons,
        List.sum_cons, add_assoc]

theorem mkFinHistory_countP_gt (asset : AssetKey) (l : List (ℚ × ℚ × ℚ)) (c : ℚ) :
    (mkFinHistory l).countP (fun h => jsLt (.fin c) (entryImbalance asset h)) =
      l.countP (fun t => c < qReading asset t) := by
  induction l with
  | nil => rfl
  | cons a t ih =>
      have hp : (fun h => jsLt (JsNum.fin c) (entryImbalance asset h))
          (⟨a.1, .fin a.2.1, .fin a.2.2⟩ : ImbalanceEntry) =
          decide (c < qReading asset a) := by
        cases asset <;> rfl
      simp only [mkFinHistory_cons, List.countP_cons, ih, hp]

theorem mkFinHistory_countP_lt (asset : AssetKey) (l : List (ℚ × ℚ × ℚ)) (c : ℚ) :
    (mkFinHistory l).countP (fun h => jsLt (entryImbalance asset h) (.fin c)) =
      l.countP (fun t => qReading asset t < c) := by
  induction l with
  | nil => rfl
  | cons a t ih =>
      have hp : (fun h => jsLt (entryImbalance asset h) (JsNum.fin c))
          (⟨a.1, .fin a.2.1, .fin a.2.2⟩ : ImbalanceEntry) =
          decide (qReading asset a < c) := by
        cases asset <;> rfl
      simp only [mkFinHistory_cons, List.countP_cons, ih, hp]

set_option maxHeartbeats 1000000 in
/-- C6: over any history of finite imbalance readings, the Trend Tracker
classifies BULLISH exactly when strictly more than 60 percent of the
readings in the 15-minute window individually exceed +0.05 AND the window
average exceeds +0.05; BEARISH exactly under the symmetric negative
conditions; NEUTRAL in every other case - in particular violating either
conjunct alone yields a non-BULLISH (resp. non-BEARISH) trend, and an empty
window returns average 0 with trend NEUTRAL. -/
theorem calculateTrend_classification (l : List (ℚ × ℚ × ℚ)) (asset : AssetKey)
    (now : ℚ) :
    let readings := (l.filter fun t => now - 15 * 60 * 1000 < t.1).map (qReading asset)
    (readings = [] → calculateTrend (mkFinHistory l) asset now = ⟨.fin 0, .NEUTRAL⟩) ∧
    (readings ≠ [] →
      (calculateTrend (mkFinHistory l) asset now).avg =
        .fin (readings.sum / readings.length) ∧
      ((calculateTrend (mkFinHistory l) asset now).trend = .BULLISH ↔
        3/5 < (readings.countP (fun q => (1/20 : ℚ) < q) : ℚ) / readings.length ∧
          (1/20 : ℚ) < readings.sum / readings.length) ∧
      ((calculateTrend (mkFinHistory l) asset now).trend = .BEARISH ↔
        3/5 < (readings.countP (fun q => q < -(1/20 : ℚ)) : ℚ) / readings.length ∧
          readings.sum / readings.length < -(1/20 : ℚ)) ∧
      ((calculateTrend (mkFinHistory l) asset now).trend = .NEUTRAL ↔
        ¬(3/5 < (readings.countP (fun q => (1/20 : ℚ) < q) : ℚ) / readings.length ∧
            (1/20 : ℚ) < readings.sum / readings.length) ∧
        ¬(3/5 < (readings.countP (fun q => q < -(1/20 : ℚ)) : ℚ) / readings.length ∧
            readings.sum / readings.length < -(1/20 : ℚ)))) := by
  intro readings
  by_cases h0 : readings = []
  · refine ⟨fun _ => ?_, fun hne => absurd h0 hne⟩
    have hf : l.filter (fun t => decide (now - 15 * 60 * 1000 < t.1)) = [] :=
      List.map_eq_nil_iff.mp h0
    by_cases hl : l = []
    · subst hl
      rfl
    · have hlen : ¬(l.length = 0) := by simpa [List.length_eq_zero] using hl
      simp only [calculateTrend, mkFinHistory_length, hlen, ite_false,
        mkFinHistory_filter, hf]
      simp [mkFinHistory]
  · have hfne : l.filter (fun t => decide (now - 15 * 60 * 1000 < t.1)) ≠ [] :=
      fun hh => h0 (by
        show (l.filter fun t => decide (now - 15 * 60 * 1000 < t.1)).map (qReading asset) = []
        simp [hh])
    have hlne : l ≠ [] := fun hh => hfne (by simp [hh])
    have hlen : ¬(l.length = 0) := by simpa [List.length_eq_zero] using hlne
    have hreclen :
        ¬((l.filter fun t => decide (now - 15 * 60 * 1000 < t.1)).length = 0) := by
      simpa [List.length_eq_zero] using hfne
    have hcast :
        ¬(((l.filter fun t => decide (now - 15 * 60 * 1000 < t.1)).length : ℚ) = 0) := by
      simpa [Nat.cast_eq_zero, List.length_eq_zero] using hfne
    refine ⟨fun he => absurd he h0, fun _ => ?_⟩
    unfold readings
    simp only [calculateTrend, mkFinHistory_length, hlen, hreclen, ite_false,
      mkFinHistory_filter, mkFinHistory_foldl, zero_add, mkFinHistory_countP_gt,
      mkFinHistory_countP_lt, List.countP_map, List.length_map,
      Function.comp_def, jsDiv, hcast, jsLt_fin, decide_eq_true_eq]
    split_ifs with hP hQ
    · exact ⟨rfl, iff_of_true rfl hP,
        iff_of_false (by decide) (by rintro ⟨-, h2⟩; have := hP.2; linarith),
        iff_of_false (by decide) (fun hc => hc.1 hP)⟩
    · exact ⟨rfl, iff_of_false (by decide) hP, iff_of_true rfl hQ,
        iff_of_false (by decide) (fun hc => hc.2 hQ)⟩
    · exact ⟨rfl, iff_of_false (by decide) hP, iff_of_false (by decide) hQ,
        iff_of_true rfl ⟨hP, hQ⟩⟩

/-- C6 witness: a concrete window (three readings of 0.5) where both
BULLISH conjuncts hold, classified BULLISH via the characterization. -/
theorem calculateTrend_classification_witness :
    (calculateTrend (mkFinHistory
        [(999000, 1/2, 0), (999100, 1/2, 0), (999200, 1/2, 0)]) .btc 1000000).trend =
      Trend.BULLISH := by
  have h := calculateTrend_classification
    [(999000, 1/2, 0), (999100, 1/2, 0), (999200, 1/2, 0)] .btc 1000000
  have h2 := h.2 (by
    norm_num [qReading, List.filter]
    exact List.cons_ne_nil _ _)
  rw [h2.2.1.mpr]
  constructor <;> norm_num [qReading, List.filter, List.countP, List.countP.go]
